import Mathlib

/-!
Verification of the coordination core of the fork-purger repository
(`purger/main.py`, with the legacy variant `purger/aggregator.py`).

The embedding is shallow: each Python coroutine becomes a Lean function
over an explicit state.  Network effects are modelled by passing the
remote response (status code and JSON body) as data; `await` suspension
points become explicit constructors of the step-result types; a Python
`raise` becomes an `Except.error` / a `raised` result that aborts the
rest of the function, exactly as the exception would.
-/

set_option linter.unusedVariables false

/-- HTTPStatus.OK. -/
def httpOK : Nat := 200

/-- HTTPStatus.NO_CONTENT. -/
def httpNoContent : Nat := 204

/-- One element of the JSON array returned by the GitHub repos endpoint,
restricted to the fields `get_forked_repos` reads: `result["fork"]` and
`result["url"]`. -/
structure RepoRecord where
  fork : Bool
  url : String
deriving DecidableEq

/-- The remote response seen by `get_forked_repos`: `res.status_code`
and `res.json()`. -/
structure HttpResponse where
  status_code : Nat
  json : List RepoRecord
deriving DecidableEq

/-- `purger/main.py::get_forked_repos` (lines 15-50), as a function of the
remote response for the requested page.  Raising becomes `Except.error`;
the `if not results: return forked_urls` early return and the
`for result in results: if result["fork"] is True: append(result["url"])`
loop are kept as in the source. -/
def get_forked_repos (res : HttpResponse) : Except String (List String) :=
  if res.status_code = httpOK then
    if res.json = [] then
      Except.ok []
    else
      Except.ok (res.json.foldl
        (fun acc result => if result.fork = true then acc ++ [result.url] else acc) [])
  else
    Except.error "non-OK response"

/-- Observable side effects of `delete_forked_repo`: the dry-run
`print(url)`, the `print(f"Deleting... {url}")`, and the remote
`client.delete(url, ...)` call. -/
inductive SinkAction where
  | printUrl (url : String)
  | printDeleting (url : String)
  | httpDelete (url : String)
deriving DecidableEq

/-- `purger/main.py::delete_forked_repo` (lines 53-71): given the delete
flag and the status code the remote would answer with, returns the list
of performed actions and the outcome.  With `delete = false` the function
prints the URL and returns before any HTTP client is created; with
`delete = true` it prints, issues the DELETE, and raises unless the
status is OK or NO_CONTENT. -/
def delete_forked_repo (url token : String) (del : Bool) (status_code : Nat) :
    List SinkAction × Except String Unit :=
  if del = false then
    ([SinkAction.printUrl url], Except.ok ())
  else
    ([SinkAction.printDeleting url, SinkAction.httpDelete url],
      if status_code = httpOK ∨ status_code = httpNoContent then
        Except.ok ()
      else
        Except.error ("HTTP error: " ++ toString status_code ++ "."))

/-- State of the `enqueue` producer loop (`purger/main.py` lines 74-117):
the current `page` counter, the log of fetch calls issued so far (page
index paired with the value of the shared event flag at the moment of the
call), the identifiers pushed onto the queue so far, and the shared
event flag. -/
structure ProdState where
  page : Nat
  fetched : List (Nat × Bool)
  pushed : List String
  event : Bool
deriving DecidableEq

/-- How a terminating `enqueue` run ends: a `get_forked_repos` exception
propagating out, or a normal `break`. -/
inductive ProdOutcome where
  | raised (e : String) (s : ProdState)
  | finished (s : ProdState)
deriving DecidableEq

/-- The producer state carried by an outcome. -/
def ProdOutcome.state : ProdOutcome → ProdState
  | .raised _ s => s
  | .finished s => s

/-- `purger/main.py::enqueue` (lines 74-117), fuelled.  Each iteration:
issue the fetch for the current page (recorded in `fetched`); if it
raises, propagate; `if not forked_urls: break`; push every URL in page
order; `if stop_after == page: break` (before `event.set()`, as in the
source); otherwise `page += 1`, `event.set()`, and loop.  `none` means
the fuel ran out before the loop terminated. -/
def enqueueLoop (fetch : Nat → Except String (List String)) (stop_after : Option Nat) :
    Nat → ProdState → Option ProdOutcome
  | 0, _ => none
  | fuel + 1, s =>
    let s1 : ProdState := { s with fetched := s.fetched ++ [(s.page, s.event)] }
    match fetch s.page with
    | Except.error e => some (ProdOutcome.raised e s1)
    | Except.ok forked_urls =>
      if forked_urls = [] then
        some (ProdOutcome.finished s1)
      else
        let s2 : ProdState := { s1 with pushed := s1.pushed ++ forked_urls }
        if stop_after = some s2.page then
          some (ProdOutcome.finished s2)
        else
          enqueueLoop fetch stop_after fuel { s2 with page := s2.page + 1, event := true }

/-- `enqueue` started from its initial state: `page = 1`, nothing fetched
or pushed, event (gate) closed. -/
def enqueue (fetch : Nat → Except String (List String)) (stop_after : Option Nat)
    (fuel : Nat) : Option ProdOutcome :=
  enqueueLoop fetch stop_after fuel ⟨1, [], [], false⟩

/-- Boolean check that every recorded fetch of a page index ≥ 2 happened
with the gate already open. -/
def fetchesGateOk (l : List (Nat × Bool)) : Bool :=
  l.all (fun pe => decide (pe.1 < 2) || pe.2)

/-- State of one `dequeue` consumer (`purger/main.py` lines 120-159): the
shared FIFO queue contents, the queue's outstanding (`_unfinished_tasks`)
count, the shared event flag, and the consumer's local `cnt`. -/
structure DequeueState where
  queue : List String
  unfinished : Nat
  event : Bool
  cnt : Nat
deriving DecidableEq

/-- Result of running one iteration of the `dequeue` loop body:
suspension at `event.wait()` (flag unset), suspension at `queue.get()`
(queue empty), an exception from `delete_forked_repo` propagating out of
the loop, a completed iteration that loops again, or the `stop_after`
break. -/
inductive DequeueStepResult where
  | suspendedOnEvent (s : DequeueState)
  | suspendedOnGet (s : DequeueState)
  | raised (e : String) (s : DequeueState)
  | looped (s : DequeueState)
  | stoppedByCap (s : DequeueState)
deriving DecidableEq

/-- The consumer state carried by a step result. -/
def DequeueStepResult.state : DequeueStepResult → DequeueState
  | .suspendedOnEvent s => s
  | .suspendedOnGet s => s
  | .raised _ s => s
  | .looped s => s
  | .stoppedByCap s => s

/-- Python truthiness of `stop_after and stop_after == cnt`
(`purger/main.py` line 158): `None` and `0` are falsy, so the comparison
is only reached for a non-zero cap. -/
def truthyAndEq (stop_after : Option Nat) (cnt : Nat) : Bool :=
  match stop_after with
  | none => false
  | some n => if n = 0 then false else decide (n = cnt)

/-- One iteration of `purger/main.py::dequeue` (lines 144-159), as a
function of the sink's behaviour on each URL: `await event.wait()`
(suspends while unset), `await queue.get()` (removes the head; suspends
while empty), `await delete_forked_repo(...)` (an error propagates before
`queue.task_done()` is reached), then `queue.task_done()`, `cnt += 1`,
and the `stop_after` check. -/
def dequeueStep (sink : String → Except String Unit) (stop_after : Option Nat)
    (s : DequeueState) : DequeueStepResult :=
  if s.event = false then
    DequeueStepResult.suspendedOnEvent s
  else
    match s.queue with
    | [] => DequeueStepResult.suspendedOnGet s
    | forked_url :: rest =>
      match sink forked_url with
      | Except.error e => DequeueStepResult.raised e { s with queue := rest }
      | Except.ok _ =>
        let s1 : DequeueState :=
          { s with queue := rest, unfinished := s.unfinished - 1, cnt := s.cnt + 1 }
        if truthyAndEq stop_after s1.cnt then
          DequeueStepResult.stoppedByCap s1
        else
          DequeueStepResult.looped s1

/-- Terminal result of a fuelled multi-iteration run of `dequeue`. -/
inductive DequeueRunResult where
  | outOfFuel (s : DequeueState)
  | suspendedOnEvent (s : DequeueState)
  | suspendedOnGet (s : DequeueState)
  | raised (e : String) (s : DequeueState)
  | stoppedByCap (s : DequeueState)
deriving DecidableEq

/-- Whether a run ended through the `stop_after` break. -/
def DequeueRunResult.viaCap : DequeueRunResult → Bool
  | .stoppedByCap _ => true
  | _ => false

/-- The `while True` loop of `dequeue`, iterating `dequeueStep` until it
suspends, raises, breaks, or the fuel runs out. -/
def dequeueRun (sink : String → Except String Unit) (stop_after : Option Nat) :
    Nat → DequeueState → DequeueRunResult
  | 0, s => DequeueRunResult.outOfFuel s
  | fuel + 1, s =>
    match dequeueStep sink stop_after s with
    | DequeueStepResult.looped s1 => dequeueRun sink stop_after fuel s1
    | DequeueStepResult.suspendedOnEvent s1 => DequeueRunResult.suspendedOnEvent s1
    | DequeueStepResult.suspendedOnGet s1 => DequeueRunResult.suspendedOnGet s1
    | DequeueStepResult.raised e s1 => DequeueRunResult.raised e s1
    | DequeueStepResult.stoppedByCap s1 => DequeueRunResult.stoppedByCap s1

/-- State of the legacy consumer in `purger/aggregator.py` (its sink
never fails and it has no cap or counter). -/
structure AggState where
  queue : List String
  unfinished : Nat
  event : Bool
deriving DecidableEq

/-- Result of one iteration of the aggregator consumer loop body. -/
inductive AggStepResult where
  | suspendedOnEvent (s : AggState)
  | broke (s : AggState)
  | looped (s : AggState)
deriving DecidableEq

/-- One iteration of `purger/aggregator.py::dequeue` (lines 99-112):
`await event.wait()`, then `if not queue.empty(): ... else: break` —
with the gate open and the queue empty this consumer exits its loop
instead of suspending on `queue.get()`. -/
def aggDequeueStep (s : AggState) : AggStepResult :=
  if s.event = false then
    AggStepResult.suspendedOnEvent s
  else
    match s.queue with
    | [] => AggStepResult.broke s
    | _ :: rest => AggStepResult.looped ⟨rest, s.unfinished - 1, s.event⟩

/-- Abstract state of the shared `asyncio.Queue` together with the full
logs of `queue.put` and `queue.get` calls issued against it by the
producer and the consumers. -/
structure QueueLog where
  queue : List String
  pushedLog : List String
  poppedLog : List String
deriving DecidableEq

/-- The two queue operations the pipeline issues: `queue.put(x)` appends
`x` at the tail; `queue.get()` atomically removes the head (asyncio's
queue serves concurrent getters one item each from the front; within the
single-threaded event loop a `get` is not interleaved with another). -/
inductive QStep : QueueLog → QueueLog → Prop
  | put (s : QueueLog) (x : String) :
      QStep s ⟨s.queue ++ [x], s.pushedLog ++ [x], s.poppedLog⟩
  | get (s : QueueLog) (x : String) (rest : List String) (h : s.queue = x :: rest) :
      QStep s ⟨rest, s.pushedLog, s.poppedLog ++ [x]⟩

/-- Queue states reachable from the fresh queue the orchestrator creates. -/
def QReach (s : QueueLog) : Prop :=
  Relation.ReflTransGen QStep ⟨[], [], []⟩ s

/-- The `for fut in done:` loop of `purger/main.py::orchestrator`
(lines 185-191): return the first exception found among the completed
tasks, scanning in iteration order.  (The `InvalidStateError` handler is
dead: `fut.exception()` cannot raise it for a future in `done`.) -/
def checkDone : List (Option String) → Except String Unit
  | [] => Except.ok ()
  | none :: rest => checkDone rest
  | some e :: _ => Except.error e

/-- What `orchestrator` does after `asyncio.wait(..., FIRST_COMPLETED)`
returns, as a function of the exceptions carried by the completed tasks:
whether an error was re-raised, whether the `for t in pending: t.cancel()`
loop ran, and whether `await queue.join()` ran. -/
structure OrchResult where
  raised : Option String
  cancelledPending : Bool
  queueJoined : Bool
deriving DecidableEq

/-- `purger/main.py::orchestrator`, lines 185-197: the `raise exc` inside
the `for fut in done:` loop aborts the function, so the cancellation loop
and `await queue.join()` run only when no completed task carried an
exception. -/
def orchestratorAfterWait (done : List (Option String)) : OrchResult :=
  match checkDone done with
  | Except.error e => ⟨some e, false, false⟩
  | Except.ok _ => ⟨none, true, true⟩

/-- Sink that fails on every URL, for the concrete counterexamples. -/
def sinkFail : String → Except String Unit :=
  fun _ => Except.error "sink boom"

/-- Source returning one fork on every page, for the cap counterexample. -/
def fetchC4 : Nat → Except String (List String) :=
  fun _ => Except.ok ["u"]

/-- Source with one fork on page 1 and an empty page 2, for witnesses. -/
def fetchTwoPages : Nat → Except String (List String) :=
  fun i => if i = 1 then Except.ok ["a"] else Except.ok []

/-- Remote responses where page 1 is a non-empty page of non-forks and
page 2 still contains a fork, for the C9 witness. -/
def responsesNoForkFirst : Nat → HttpResponse :=
  fun i => if i = 1 then ⟨200, [⟨false, "u1"⟩]⟩ else ⟨200, [⟨true, "u2"⟩]⟩

/-! ## Theorems -/

/-- Helper: `checkDone` finds the first error when the earlier completed
tasks all succeeded. -/
theorem checkDone_first_error (e : String) :
    ∀ (pre rest : List (Option String)), (∀ o ∈ pre, o = none) →
      checkDone (pre ++ some e :: rest) = Except.error e := by
  intro pre
  induction pre with
  | nil => intro rest _; rfl
  | cons o pre ih =>
    intro rest hpre
    have ho : o = none := hpre o (List.mem_cons_self o pre)
    subst ho
    simpa [checkDone] using ih rest (fun o hm => hpre o (List.mem_cons_of_mem _ hm))

/-- C1 counterexample: a single completed task that failed with "boom".
The claim requires the orchestrator to cancel every other still-running
task and wait for the queue drain before returning with that error; the
code re-raises the error inside the `for fut in done:` loop, so both the
cancellation loop and `await queue.join()` are skipped
(`cancelledPending = false`, `queueJoined = false`). -/
theorem orchestrator_error_skips_drain_cex :
    orchestratorAfterWait [some "boom"] = ⟨some "boom", false, false⟩ := rfl

/-- C1 (amended): when the first task to reach a terminal state failed
with an error, the orchestrator returns that error as the pipeline
outcome, but it does so by re-raising inside the done-scan, before the
cancellation loop and before `await queue.join()`: no other task is
cancelled and the queue is not drained. -/
theorem orchestrator_first_error_no_drain (done pre rest : List (Option String))
    (e : String) (hdone : done = pre ++ some e :: rest)
    (hpre : ∀ o ∈ pre, o = none) :
    orchestratorAfterWait done = ⟨some e, false, false⟩ := by
  subst hdone
  unfold orchestratorAfterWait
  rw [checkDone_first_error e pre rest hpre]

/-- C1 witness: the amended theorem applied to a concrete run whose first
completed task succeeded and whose second failed with "x". -/
theorem orchestrator_first_error_no_drain_witness :
    orchestratorAfterWait [none, some "x"] = ⟨some "x", false, false⟩ :=
  orchestrator_first_error_no_drain [none, some "x"] [none] [] "x" rfl
    (by intro o hm; simpa using hm)

/-- C2 counterexample: a consumer iteration with `queue = ["r1"]`,
outstanding count 1, gate open, and a sink that fails on "r1".  The claim
says the failing identifier is still marked done so the outstanding count
reaches zero; the code's `delete_forked_repo` exception propagates before
`queue.task_done()` is reached, so the iteration ends with the exception
and the outstanding count still 1, not 0. -/
theorem dequeue_sink_failure_cex :
    dequeueStep sinkFail none ⟨["r1"], 1, true, 0⟩ =
      DequeueStepResult.raised "sink boom" ⟨[], 1, true, 0⟩ ∧
    (dequeueStep sinkFail none ⟨["r1"], 1, true, 0⟩).state.unfinished = 1 :=
  ⟨rfl, rfl⟩

/-- C2 (amended): in every consumer iteration whose Item Sink call fails,
the exception propagates out of the loop before `queue.task_done()`: the
dequeued identifier is removed from the queue but not marked done, and
the queue's outstanding count is left unchanged (hence positive, not
zero, on account of that item). -/
theorem dequeue_sink_failure_no_task_done (sink : String → Except String Unit)
    (stop_after : Option Nat) (s : DequeueState) (url e : String)
    (rest : List String) (hev : s.event = true) (hq : s.queue = url :: rest)
    (he : sink url = Except.error e) :
    dequeueStep sink stop_after s = DequeueStepResult.raised e { s with queue := rest } ∧
    (dequeueStep sink stop_after s).state.unfinished = s.unfinished := by
  have h1 : dequeueStep sink stop_after s =
      DequeueStepResult.raised e { s with queue := rest } := by
    simp [dequeueStep, hev, hq, he]
  refine ⟨h1, ?_⟩
  rw [h1]
  rfl

/-- C2 witness: the amended theorem applied to the concrete failing
iteration (queue `["r1"]`, outstanding 1, gate open, failing sink). -/
theorem dequeue_sink_failure_no_task_done_witness :
    dequeueStep sinkFail (some 5) ⟨["r1"], 1, true, 0⟩ =
      DequeueStepResult.raised "sink boom" ⟨[], 1, true, 0⟩ ∧
    (dequeueStep sinkFail (some 5) ⟨["r1"], 1, true, 0⟩).state.unfinished = 1 :=
  dequeue_sink_failure_no_task_done sinkFail (some 5) ⟨["r1"], 1, true, 0⟩
    "r1" "sink boom" [] rfl rfl rfl

/-- C6: at the failing input — gate open, work queue transiently empty —
the consumer of `purger/main.py` suspends on `queue.get()` as the claim
requires, but the consumer of `purger/aggregator.py` (also cited by the
claim) takes its `else: break` branch and terminates instead of
suspending: the exact early exit on "queue empty" that the design
explicitly forbids. -/
theorem dequeue_empty_queue_main_suspends_agg_breaks :
    dequeueStep (fun _ => Except.ok ()) none ⟨[], 0, true, 0⟩ =
      DequeueStepResult.suspendedOnGet ⟨[], 0, true, 0⟩ ∧
    aggDequeueStep ⟨[], 0, true⟩ = AggStepResult.broke ⟨[], 0, true⟩ :=
  ⟨rfl, rfl⟩

/-- C8: for every identifier, `delete_forked_repo` in report-only mode
(`delete = false`) performs exactly one action — printing the URL — so no
`httpDelete` is issued, and returns successfully; in destructive mode
(`delete = true`) it returns successfully iff the remote status is OK
(200) or NO_CONTENT (204), i.e. it raises exactly when the status is
neither. -/
theorem delete_forked_repo_modes (url token : String) (status : Nat) :
    delete_forked_repo url token false status =
      ([SinkAction.printUrl url], Except.ok ()) ∧
    ((delete_forked_repo url token true status).2 = Except.ok () ↔
      (status = 200 ∨ status = 204)) := by
  constructor
  · rfl
  · by_cases h : status = 200 ∨ status = 204 <;>
      simp [delete_forked_repo, httpOK, httpNoContent, h]

/-- Unfolding: an iteration whose fetch raises propagates the error. -/
theorem enqueueLoop_error (fetch : Nat → Except String (List String)) (cap : Option Nat)
    (fuel : Nat) (s : ProdState) (e : String) (hf : fetch s.page = Except.error e) :
    enqueueLoop fetch cap (fuel + 1) s =
      some (ProdOutcome.raised e { s with fetched := s.fetched ++ [(s.page, s.event)] }) := by
  simp [enqueueLoop, hf]

/-- Unfolding: an iteration whose fetch returns an empty page breaks. -/
theorem enqueueLoop_empty (fetch : Nat → Except String (List String)) (cap : Option Nat)
    (fuel : Nat) (s : ProdState) (hf : fetch s.page = Except.ok []) :
    enqueueLoop fetch cap (fuel + 1) s =
      some (ProdOutcome.finished { s with fetched := s.fetched ++ [(s.page, s.event)] }) := by
  simp [enqueueLoop, hf]

/-- Unfolding: a non-empty page at the iteration cap pushes the page and
breaks before `event.set()`. -/
theorem enqueueLoop_capstop (fetch : Nat → Except String (List String)) (cap : Option Nat)
    (fuel : Nat) (s : ProdState) (us : List String) (hf : fetch s.page = Except.ok us)
    (hne : us ≠ []) (hcap : cap = some s.page) :
    enqueueLoop fetch cap (fuel + 1) s =
      some (ProdOutcome.finished
        { s with fetched := s.fetched ++ [(s.page, s.event)], pushed := s.pushed ++ us }) := by
  simp [enqueueLoop, hf, hne, hcap]

/-- Unfolding: a non-empty page below the cap pushes the page, opens the
gate, advances the page counter, and loops. -/
theorem enqueueLoop_next (fetch : Nat → Except String (List String)) (cap : Option Nat)
    (fuel : Nat) (s : ProdState) (us : List String) (hf : fetch s.page = Except.ok us)
    (hne : us ≠ []) (hcap : cap ≠ some s.page) :
    enqueueLoop fetch cap (fuel + 1) s =
      enqueueLoop fetch cap fuel
        ⟨s.page + 1, s.fetched ++ [(s.page, s.event)], s.pushed ++ us, true⟩ := by
  simp [enqueueLoop, hf, hne, hcap]

/-- Helper for the capless producer run: starting from any state whose
page is at most the first empty page `k`, with enough fuel, the run
finishes having fetched exactly the pages from the current one up to
`k`, in order. -/
theorem enqueueLoop_exhausts (fetch : Nat → Except String (List String)) (k : Nat)
    (hke : fetch k = Except.ok []) :
    ∀ (fuel : Nat) (s : ProdState), s.page ≤ k → k - s.page < fuel →
      (∀ i, s.page ≤ i → i < k → ∃ us, fetch i = Except.ok us ∧ us ≠ []) →
      ∃ s2, enqueueLoop fetch none fuel s = some (ProdOutcome.finished s2) ∧
        s2.fetched.map Prod.fst =
          s.fetched.map Prod.fst ++ List.range' s.page (k + 1 - s.page) := by
  intro fuel
  induction fuel with
  | zero => intro s hp hf hall; omega
  | succ fuel ih =>
    intro s hp hf hall
    by_cases hpk : s.page = k
    · refine ⟨{ s with fetched := s.fetched ++ [(s.page, s.event)] }, ?_, ?_⟩
      · exact enqueueLoop_empty fetch none fuel s (by rw [hpk]; exact hke)
      · have h1 : k + 1 - s.page = 1 := by omega
        simp [h1, hpk]
    · have hlt : s.page < k := by omega
      obtain ⟨us, hus, hne⟩ := hall s.page le_rfl hlt
      rw [enqueueLoop_next fetch none fuel s us hus hne (by simp)]
      obtain ⟨s2, hrun, hmap⟩ :=
        ih ⟨s.page + 1, s.fetched ++ [(s.page, s.event)], s.pushed ++ us, true⟩
          (by show s.page + 1 ≤ k; omega) (by show k - (s.page + 1) < fuel; omega)
          (fun i hi1 hi2 => hall i (le_trans (Nat.le_succ s.page) hi1) hi2)
      refine ⟨s2, hrun, ?_⟩
      rw [hmap]
      have e1 : k + 1 - s.page = (k - s.page) + 1 := by omega
      have e2 : k + 1 - (s.page + 1) = k - s.page := by omega
      rw [e1, e2, List.range'_succ]
      simp

/-- C3: for every source in which page `k` (with `k ≥ 1`) is the first
page whose returned identifier sequence is empty, a producer run with no
iteration cap and fuel at least `k` terminates normally having issued
exactly the fetch calls for pages `1, 2, ..., k` (`List.range' 1 k`) in
that order — so the page indices are strictly increasing, page `k + 1` is
never fetched, and no page is refetched. -/
theorem enqueue_fetches_exactly_k_pages (fetch : Nat → Except String (List String))
    (k fuel : Nat) (hk1 : 1 ≤ k) (hke : fetch k = Except.ok [])
    (hall : ∀ i, 1 ≤ i → i < k → ∃ us, fetch i = Except.ok us ∧ us ≠ [])
    (hfuel : k ≤ fuel) :
    ∃ s2, enqueue fetch none fuel = some (ProdOutcome.finished s2) ∧
      s2.fetched.map Prod.fst = List.range' 1 k := by
  obtain ⟨s2, h1, h2⟩ := enqueueLoop_exhausts fetch k hke fuel ⟨1, [], [], false⟩
    (by show 1 ≤ k; omega) (by show k - 1 < fuel; omega)
    (fun i hi1 hi2 => hall i hi1 hi2)
  refine ⟨s2, h1, ?_⟩
  simpa using h2

/-- C3 witness: a source whose page 1 holds one fork and whose page 2 is
empty; the producer issues exactly the two fetches for pages 1 and 2. -/
theorem enqueue_fetches_exactly_k_pages_witness :
    ∃ s2, enqueue fetchTwoPages none 2 = some (ProdOutcome.finished s2) ∧
      s2.fetched.map Prod.fst = List.range' 1 2 :=
  enqueue_fetches_exactly_k_pages fetchTwoPages 2 2 (by omega) rfl
    (by intro i hi1 hi2
        have hi : i = 1 := by omega
        subst hi
        exact ⟨["a"], rfl, by decide⟩)
    (by omega)

/-- Helper: appending a fetch record keeps `fetchesGateOk`, provided the
gate is open whenever the fetched page index is at least 2. -/
theorem fetchesGateOk_append (l : List (Nat × Bool)) (p : Nat) (b : Bool)
    (h1 : fetchesGateOk l = true) (h2 : b = false → p ≤ 1) :
    fetchesGateOk (l ++ [(p, b)]) = true := by
  simp [fetchesGateOk, List.all_append] at h1 ⊢
  refine ⟨h1, ?_⟩
  cases hb : b
  · have hp := h2 hb
    exact Or.inl (by omega)
  · exact Or.inr rfl

/-- Helper invariant: any terminating producer run, from a state whose
fetch log satisfies the gate condition and whose gate is open whenever
the page counter is at least 2, ends with a fetch log in which every
fetch of a page index ≥ 2 was issued with the gate open. -/
theorem enqueueLoop_gate_inv (fetch : Nat → Except String (List String)) (cap : Option Nat) :
    ∀ (fuel : Nat) (s : ProdState) (out : ProdOutcome),
      enqueueLoop fetch cap fuel s = some out →
      fetchesGateOk s.fetched = true → (s.event = false → s.page ≤ 1) →
      fetchesGateOk out.state.fetched = true := by
  intro fuel
  induction fuel with
  | zero => intro s out h _ _; exact absurd h (by simp [enqueueLoop])
  | succ fuel ih =>
    intro s out h h1 h2
    rcases hf : fetch s.page with e | us
    · rw [enqueueLoop_error fetch cap fuel s e hf] at h
      cases h
      exact fetchesGateOk_append _ _ _ h1 h2
    · by_cases hus : us = []
      · subst hus
        rw [enqueueLoop_empty fetch cap fuel s hf] at h
        cases h
        exact fetchesGateOk_append _ _ _ h1 h2
      · by_cases hcap : cap = some s.page
        · rw [enqueueLoop_capstop fetch cap fuel s us hf hus hcap] at h
          cases h
          exact fetchesGateOk_append _ _ _ h1 h2
        · rw [enqueueLoop_next fetch cap fuel s us hf hus hcap] at h
          exact ih _ out h (fetchesGateOk_append _ _ _ h1 h2)
            (by intro hcontra; simp at hcontra)

/-- C4 counterexample: a source with a fork on every page and an
iteration cap of 1.  The capped page is non-empty and its identifier is
pushed, yet the run terminates with the readiness gate still closed,
because `if stop_after == page: break` executes before `event.set()`.
(The repository's own test `test_enqueue_ok` asserts exactly this:
`event.is_set() is False` after a `stop_after=1` run.) -/
theorem enqueue_cap_page_gate_closed_cex :
    ∃ s2, enqueue fetchC4 (some 1) 2 = some (ProdOutcome.finished s2) ∧
      s2.pushed = ["u"] ∧ s2.event = false :=
  ⟨⟨1, [(1, false)], ["u"], false⟩, by decide, rfl, rfl⟩

/-- C4 (amended): after pushing each non-empty page the producer sets the
readiness gate before fetching the next page — in any terminating run,
every fetch of a page index ≥ 2 is issued with the gate already open —
but when the optional iteration cap stops the loop at a page, the
producer terminates directly after that push without setting the gate. -/
theorem enqueue_gate_open_before_later_fetches (fetch : Nat → Except String (List String))
    (cap : Option Nat) (fuel : Nat) (out : ProdOutcome)
    (h : enqueue fetch cap fuel = some out) :
    fetchesGateOk out.state.fetched = true :=
  enqueueLoop_gate_inv fetch cap fuel ⟨1, [], [], false⟩ out h rfl (fun _ => le_refl 1)

/-- C4 witness: the amended theorem applied to a concrete two-page run;
the second page's fetch happened with the gate open. -/
theorem enqueue_gate_open_witness :
    fetchesGateOk (ProdOutcome.state
      (ProdOutcome.finished ⟨2, [(1, false), (2, true)], ["a"], true⟩)).fetched = true :=
  enqueue_gate_open_before_later_fetches fetchTwoPages none 2
    (ProdOutcome.finished ⟨2, [(1, false), (2, true)], ["a"], true⟩) (by decide)

/-- Helper invariant of the shared queue: at every reachable state, the
log of pushed identifiers is the log of popped identifiers followed by
the identifiers still pending in the queue. -/
theorem QReach_invariant (s : QueueLog) (h : QReach s) :
    s.pushedLog = s.poppedLog ++ s.queue := by
  induction h with
  | refl => rfl
  | tail hr hstep ih =>
    cases hstep with
    | put x => simp only [ih, List.append_assoc]
    | get x rest hq => simp [ih, hq]

/-- C5: at every reachable state of the shared queue, the popped log is a
prefix of the pushed log in exactly the pushed (FIFO) order — each `get`
removes the head, so identifiers are delivered in the order pushed and no
identifier is delivered to two consumers or delivered twice — and the
pushed multiset decomposes as popped plus pending, so once the queue is
drained (pending empty, the successful-run condition) the multiset of
processed identifiers equals the multiset of pushed identifiers. -/
theorem queue_fifo_exactly_once (s : QueueLog) (h : QReach s) :
    s.pushedLog = s.poppedLog ++ s.queue ∧
    (↑s.pushedLog : Multiset String) = ↑s.poppedLog + ↑s.queue := by
  have h1 := QReach_invariant s h
  refine ⟨h1, ?_⟩
  rw [h1]
  rfl

/-- C5 witness: a concrete run — push "a", push "b", pop twice — reaching
the drained state where the popped log equals the pushed log. -/
theorem queue_fifo_exactly_once_witness :
    (["a", "b"] : List String) = ["a", "b"] ++ ([] : List String) ∧
    (↑(["a", "b"] : List String) : Multiset String) =
      ↑(["a", "b"] : List String) + ↑([] : List String) := by
  have h1 : QStep ⟨[], [], []⟩ ⟨["a"], ["a"], []⟩ := QStep.put ⟨[], [], []⟩ "a"
  have h2 : QStep ⟨["a"], ["a"], []⟩ ⟨["a", "b"], ["a", "b"], []⟩ :=
    QStep.put ⟨["a"], ["a"], []⟩ "b"
  have h3 : QStep ⟨["a", "b"], ["a", "b"], []⟩ ⟨["b"], ["a", "b"], ["a"]⟩ :=
    QStep.get ⟨["a", "b"], ["a", "b"], []⟩ "a" ["b"] rfl
  have h4 : QStep ⟨["b"], ["a", "b"], ["a"]⟩ ⟨[], ["a", "b"], ["a", "b"]⟩ :=
    QStep.get ⟨["b"], ["a", "b"], ["a"]⟩ "b" [] rfl
  have hreach : QReach ⟨[], ["a", "b"], ["a", "b"]⟩ :=
    Relation.ReflTransGen.tail
      (Relation.ReflTransGen.tail
        (Relation.ReflTransGen.tail
          (Relation.ReflTransGen.tail Relation.ReflTransGen.refl h1) h2) h3) h4
  exact queue_fifo_exactly_once ⟨[], ["a", "b"], ["a", "b"]⟩ hreach

/-- Helper: a consumer step never writes the shared event flag — every
branch of the loop body leaves it exactly as it was. -/
theorem dequeueStep_event_eq (sink : String → Except String Unit) (cap : Option Nat)
    (s : DequeueState) : (dequeueStep sink cap s).state.event = s.event := by
  rcases s with ⟨q, unf, ev, c⟩
  cases ev
  · rfl
  · rcases q with _ | ⟨u, rest⟩
    · rfl
    · show (dequeueStep sink cap ⟨u :: rest, unf, true, c⟩).state.event = true
      unfold dequeueStep
      rcases hs : sink u with e | v
      · simp [hs, DequeueStepResult.state]
      · simp only [hs]
        split
        · rfl
        · split <;> rfl

/-- Helper: the producer only ever sets the event flag to open; a
terminating run started with the flag open ends with it open. -/
theorem enqueueLoop_event_mono (fetch : Nat → Except String (List String)) (cap : Option Nat) :
    ∀ (fuel : Nat) (s : ProdState) (out : ProdOutcome),
      enqueueLoop fetch cap fuel s = some out → s.event = true →
      out.state.event = true := by
  intro fuel
  induction fuel with
  | zero => intro s out h _; exact absurd h (by simp [enqueueLoop])
  | succ fuel ih =>
    intro s out h hev
    rcases hf : fetch s.page with e | us
    · rw [enqueueLoop_error fetch cap fuel s e hf] at h
      cases h
      exact hev
    · by_cases hus : us = []
      · subst hus
        rw [enqueueLoop_empty fetch cap fuel s hf] at h
        cases h
        exact hev
      · by_cases hcap : cap = some s.page
        · rw [enqueueLoop_capstop fetch cap fuel s us hf hus hcap] at h
          cases h
          exact hev
        · rw [enqueueLoop_next fetch cap fuel s us hf hus hcap] at h
          exact ih _ out h rfl

/-- C7: once the readiness gate is open it stays open — no later step
resets it.  Every branch of the consumer loop body leaves the event flag
unchanged (the consumer only reads it through `event.wait()`), and any
terminating continuation of the producer loop from a state with the flag
open ends with it open (the producer's only write is `event.set()`).
The orchestrator itself never touches the event after creating it, as
`orchestratorAfterWait` — its entire post-wait behaviour — does not
involve the event at all. -/
theorem event_monotone_once_set (sink : String → Except String Unit) (cap : Option Nat)
    (s : DequeueState) (fetch : Nat → Except String (List String)) (pcap : Option Nat)
    (fuel : Nat) (ps : ProdState) (out : ProdOutcome)
    (h1 : enqueueLoop fetch pcap fuel ps = some out) (h2 : ps.event = true) :
    (dequeueStep sink cap s).state.event = s.event ∧ out.state.event = true :=
  ⟨dequeueStep_event_eq sink cap s, enqueueLoop_event_mono fetch pcap fuel ps out h1 h2⟩

/-- C7 witness: a consumer step on a concrete open-gate state and a
concrete one-page producer run started with the gate open. -/
theorem event_monotone_once_set_witness :
    (dequeueStep (fun _ => Except.ok ()) none ⟨[], 0, true, 0⟩).state.event = true ∧
    (ProdOutcome.finished ⟨1, [(1, true)], [], true⟩).state.event = true :=
  event_monotone_once_set (fun _ => Except.ok ()) none ⟨[], 0, true, 0⟩
    (fun _ => Except.ok ([] : List String)) none 1 ⟨1, [], [], true⟩
    (ProdOutcome.finished ⟨1, [(1, true)], [], true⟩) rfl rfl

/-- Helper: filtering a page of records none of which is a fork appends
nothing. -/
theorem foldl_no_fork :
    ∀ (l : List RepoRecord), (∀ r ∈ l, r.fork = false) → ∀ acc : List String,
      l.foldl (fun acc result =>
        if result.fork = true then acc ++ [result.url] else acc) acc = acc := by
  intro l
  induction l with
  | nil => intro _ acc; rfl
  | cons r l ih =>
    intro hnf acc
    have hr : r.fork = false := hnf r (List.mem_cons_self r l)
    simp only [List.foldl_cons, hr]
    simp only [Bool.false_eq_true, if_false]
    exact ih (fun x hm => hnf x (List.mem_cons_of_mem _ hm)) acc

/-- C9: when the remote response for the current page is OK and its
(non-empty) list of repositories contains no record with `fork = true`,
`get_forked_repos` returns an empty identifier list, and the producer
treats that exactly like exhaustion: it terminates after this fetch and
never requests the next page — even though the remote collection is not
exhausted and the very next page still contains a fork. -/
theorem no_fork_page_stops_pagination (responses : Nat → HttpResponse) (p fuel : Nat)
    (cap : Option Nat) (s : ProdState) (hp : s.page = p)
    (h200 : (responses p).status_code = httpOK)
    (hne : (responses p).json ≠ [])
    (hnf : ∀ r ∈ (responses p).json, r.fork = false)
    (hlater : ∃ r ∈ (responses (p + 1)).json, r.fork = true) :
    get_forked_repos (responses p) = Except.ok [] ∧
    enqueueLoop (fun i => get_forked_repos (responses i)) cap (fuel + 1) s =
      some (ProdOutcome.finished { s with fetched := s.fetched ++ [(s.page, s.event)] }) := by
  have hget : get_forked_repos (responses p) = Except.ok [] := by
    unfold get_forked_repos
    rw [h200]
    simp [hne, foldl_no_fork _ hnf]
  refine ⟨hget, ?_⟩
  exact enqueueLoop_empty (fun i => get_forked_repos (responses i)) cap fuel s
    (by rw [hp]; exact hget)

/-- C9 witness: page 1 is a non-empty page of non-forks, page 2 holds a
fork; the producer stops after the single page-1 fetch. -/
theorem no_fork_page_stops_pagination_witness :
    get_forked_repos (responsesNoForkFirst 1) = Except.ok [] ∧
    enqueueLoop (fun i => get_forked_repos (responsesNoForkFirst i)) none 1
        ⟨1, [], [], false⟩ =
      some (ProdOutcome.finished ⟨1, [(1, false)], [], false⟩) :=
  no_fork_page_stops_pagination responsesNoForkFirst 1 0 none ⟨1, [], [], false⟩
    rfl rfl (by decide) (by decide) (by decide)

/-- Helper: with a cap of 0, the Python check `stop_after and
stop_after == cnt` is falsy for every count, exactly as with no cap. -/
theorem dequeueStep_cap_zero (sink : String → Except String Unit) (s : DequeueState) :
    dequeueStep sink (some 0) s = dequeueStep sink none s := by
  unfold dequeueStep
  by_cases hev : s.event = false
  · simp [hev]
  · rcases hq : s.queue with _ | ⟨u, rest⟩
    · simp [hev, hq]
    · rcases hs : sink u with e | v
      · simp [hev, hq, hs]
      · simp [hev, hq, hs, truthyAndEq]

/-- Helper: a consumer step without a cap never takes the cap break. -/
theorem dequeueStep_none_not_cap (sink : String → Except String Unit) (s : DequeueState)
    (t : DequeueState) (h : dequeueStep sink none s = DequeueStepResult.stoppedByCap t) :
    False := by
  unfold dequeueStep at h
  by_cases hev : s.event = false
  · simp [hev] at h
  · rcases hq : s.queue with _ | ⟨u, rest⟩
    · simp [hev, hq] at h
    · rcases hs : sink u with e | v
      · simp [hev, hq, hs] at h
      · simp [hev, hq, hs, truthyAndEq] at h

/-- Helper: a capless consumer run and a cap-0 run take identical steps. -/
theorem dequeueRun_cap_zero_eq (sink : String → Except String Unit) :
    ∀ (fuel : Nat) (s : DequeueState),
      dequeueRun sink (some 0) fuel s = dequeueRun sink none fuel s := by
  intro fuel
  induction fuel with
  | zero => intro s; rfl
  | succ fuel ih =>
    intro s
    show (match dequeueStep sink (some 0) s with
      | DequeueStepResult.looped s1 => dequeueRun sink (some 0) fuel s1
      | DequeueStepResult.suspendedOnEvent s1 => DequeueRunResult.suspendedOnEvent s1
      | DequeueStepResult.suspendedOnGet s1 => DequeueRunResult.suspendedOnGet s1
      | DequeueStepResult.raised e s1 => DequeueRunResult.raised e s1
      | DequeueStepResult.stoppedByCap s1 => DequeueRunResult.stoppedByCap s1) =
      dequeueRun sink none (fuel + 1) s
    rw [dequeueStep_cap_zero]
    cases h : dequeueStep sink none s <;> simp [dequeueRun, h, ih]

/-- Helper: a capless consumer run never ends through the cap break. -/
theorem dequeueRun_none_not_cap (sink : String → Except String Unit) :
    ∀ (fuel : Nat) (s : DequeueState),
      (dequeueRun sink none fuel s).viaCap = false := by
  intro fuel
  induction fuel with
  | zero => intro s; rfl
  | succ fuel ih =>
    intro s
    cases h : dequeueStep sink none s with
    | looped s1 => simp [dequeueRun, h, ih]
    | suspendedOnEvent s1 => simp [dequeueRun, h, DequeueRunResult.viaCap]
    | suspendedOnGet s1 => simp [dequeueRun, h, DequeueRunResult.viaCap]
    | raised e s1 => simp [dequeueRun, h, DequeueRunResult.viaCap]
    | stoppedByCap s1 => exact absurd h (fun hc => dequeueStep_none_not_cap sink s s1 hc)

/-- C10: a consumer invoked with `stop_after = 0` behaves exactly as if
no cap were given — the Python check `stop_after and stop_after == cnt`
requires a truthy cap, and `0` is falsy — so the whole run is identical
to the capless run and in particular never stops through the
processed-count cap. -/
theorem dequeue_stop_after_zero_no_cap (sink : String → Except String Unit)
    (fuel : Nat) (s : DequeueState) :
    dequeueRun sink (some 0) fuel s = dequeueRun sink none fuel s ∧
    (dequeueRun sink (some 0) fuel s).viaCap = false := by
  refine ⟨dequeueRun_cap_zero_eq sink fuel s, ?_⟩
  rw [dequeueRun_cap_zero_eq sink fuel s]
  exact dequeueRun_none_not_cap sink fuel s

/-- C8 witness: the modes theorem at a concrete URL and the NO_CONTENT
status. -/
theorem delete_forked_repo_modes_witness :
    delete_forked_repo "u" "t" false 204 = ([SinkAction.printUrl "u"], Except.ok ()) ∧
    ((delete_forked_repo "u" "t" true 204).2 = Except.ok () ↔ (204 = 200 ∨ 204 = 204)) :=
  delete_forked_repo_modes "u" "t" 204

/-- C10 witness: the cap-0 theorem at a concrete consumer state. -/
theorem dequeue_stop_after_zero_no_cap_witness :
    dequeueRun sinkFail (some 0) 1 ⟨[], 0, false, 0⟩ =
      dequeueRun sinkFail none 1 ⟨[], 0, false, 0⟩ ∧
    (dequeueRun sinkFail (some 0) 1 ⟨[], 0, false, 0⟩).viaCap = false :=
  dequeue_stop_after_zero_no_cap sinkFail 1 ⟨[], 0, false, 0⟩
